import Mathlib

/-!
# Verification of the minimal-client endpoint resolution core

Shallow embedding of the two helper functions of
`src/minimal_client/main.cpp` (namespace `make87`):

* `sanitize_and_checksum` — sanitizes a string to `[A-Za-z0-9_]`,
  appends a decimal polynomial checksum of the original bytes, and
  bounds the total length by 256.
* `resolve_endpoint_name` — looks a logical endpoint name up in the
  JSON-valued `ENDPOINTS` environment variable and either feeds the
  matching `endpoint_key` through `sanitize_and_checksum` or falls
  back to a caller-supplied default.

A C++ `std::string` is a sequence of bytes; we model it as `List Nat`
whose elements are byte values. The JSON parser is the external
nlohmann library, not code of this repository: its outcome is modelled
as `Option (Except Str JValue)` where `none` is "environment variable
unset", `Except.error` is "the parser threw", and `Except.ok` is the
parsed document.
-/

namespace make87

/-- A C++ `std::string`: a list of byte values. -/
abbrev Str := List Nat

/-- Byte list of an ASCII Lean string literal (used for concrete inputs). -/
def asciiBytes (s : String) : Str := s.toList.map Char.toNat

/-- `2^64`, the wrap-around modulus of `uint64_t` / `size_t`. -/
def UINT64_LIMIT : Nat := 18446744073709551616

/-- The checksum modulus `1000000007ULL` from the source. -/
def CHECKSUM_MOD : Nat := 1000000007

/-- The fixed literal tag `"ros2_"` (named `prefix` in the source; that
word is a Lean keyword, hence the rename). -/
def ros2Tag : Str := asciiBytes "ros2_"

/-- The character test of the sanitization loop:
`(c >= 'a' && c <= 'z') || (c >= 'A' && c <= 'Z') || (c >= '0' && c <= '9') || c == '_'`. -/
def isAllowedByte (c : Nat) : Bool :=
  (97 ≤ c && c ≤ 122) || (65 ≤ c && c ≤ 90) || (48 ≤ c && c ≤ 57) || c == 95

/-- One iteration of the sanitization loop: keep an allowed byte,
replace anything else with `'_'` (byte 95). -/
def sanitizeByte (c : Nat) : Nat :=
  if isAllowedByte c then c else 95

/-- The sanitization loop over the whole input. -/
def sanitize (input : Str) : Str := input.map sanitizeByte

/-- One iteration of the checksum loop:
`sum = (sum * 31 + b) % 1000000007ULL` in `uint64_t` arithmetic. -/
def checksumStep (sum b : Nat) : Nat :=
  ((sum * 31 + b) % UINT64_LIMIT) % CHECKSUM_MOD

/-- The checksum loop over the original (unsanitized) input bytes,
starting from 0. -/
def checksum (input : Str) : Nat := input.foldl checksumStep 0

/-- Decimal digits (as ASCII bytes, most significant first) of `n`,
computed with a structural-recursion fuel argument so the kernel can
evaluate it. The fuel `n + 1` always suffices (`digitsAux_congr`). -/
def digitsAux : Nat → Nat → List Nat
  | 0, _ => []
  | fuel + 1, n =>
    if n < 10 then [n + 48] else digitsAux fuel (n / 10) ++ [n % 10 + 48]

/-- `std::to_string` on an unsigned integer: decimal rendering, no
leading zeros, `0` renders as `"0"`. -/
def decimalDigits (n : Nat) : Str := digitsAux (n + 1) n

/-- `size_t` subtraction `a - b` with wrap-around modulo `2^64`
(meaningful for `a, b < 2^64`). -/
def sub64 (a b : Nat) : Nat := (UINT64_LIMIT + a - b) % UINT64_LIMIT

/-- `make87::sanitize_and_checksum`, line by line: the `"ros2_"` tag,
the sanitized input, the decimal checksum string, the `size_t` length
budget `256 - prefix_length - checksum_length`, the conditional
truncation `substr(0, max_sanitized_length)`, and the concatenation. -/
def sanitize_and_checksum (input : Str) : Str :=
  let sanitized := sanitize input
  let checksumStr := decimalDigits (checksum input)
  let max_total_length : Nat := 256
  let max_sanitized_length :=
    sub64 (sub64 max_total_length ros2Tag.length) checksumStr.length
  let truncated :=
    if sanitized.length > max_sanitized_length then
      sanitized.take max_sanitized_length
    else sanitized
  ros2Tag ++ truncated ++ checksumStr

/-!
## JSON model and the endpoint resolver

`nlohmann::json` values after a successful parse: null, boolean,
number, string, array, or object (an association list of fields; the
parser never produces duplicate keys).
-/

/-- A parsed JSON value. -/
inductive JValue where
  | null : JValue
  | jbool : Bool → JValue
  | jnum : Int → JValue
  | jstr : Str → JValue
  | jarr : List JValue → JValue
  | jobj : List (Str × JValue) → JValue

/-- `j.contains(k)`: true iff `j` is an object with a field named `k`. -/
def jsonContains (j : JValue) (k : Str) : Bool :=
  match j with
  | JValue.jobj fields => fields.any (fun p => p.1 == k)
  | _ => false

/-- `j[k]` on an object known to contain `k`: the field's value
(`null` when absent or `j` is not an object, a case the source always
guards with `contains`). -/
def jsonGet (j : JValue) (k : Str) : JValue :=
  match j with
  | JValue.jobj fields =>
    match fields.find? (fun p => p.1 == k) with
    | some p => p.2
    | none => JValue.null
  | _ => JValue.null

/-- `j.is_string()`. -/
def JValue.isString : JValue → Bool
  | JValue.jstr _ => true
  | _ => false

/-- `j.is_array()`. -/
def JValue.isArray : JValue → Bool
  | JValue.jarr _ => true
  | _ => false

/-- `j.get<std::string>()` on a value known to be a string. -/
def JValue.getStr : JValue → Str
  | JValue.jstr s => s
  | _ => []

/-- `j.get...` for arrays: the element list of an array value. -/
def JValue.getArr : JValue → List JValue
  | JValue.jarr xs => xs
  | _ => []

/-- `j == search` where `search` is a string: nlohmann equality across
types is false, so this holds iff `j` is a string with equal bytes. -/
def jvalEqStr (j : JValue) (s : Str) : Bool :=
  match j with
  | JValue.jstr t => t == s
  | _ => false

/-- The field name `"endpoints"`. -/
def endpointsField : Str := asciiBytes "endpoints"

/-- The field name `"endpoint_name"`. -/
def endpointNameField : Str := asciiBytes "endpoint_name"

/-- The field name `"endpoint_key"`. -/
def endpointKeyField : Str := asciiBytes "endpoint_key"

/-- The `for (const auto& endpoint : json_obj["endpoints"])` loop: the
first element whose `endpoint_name` field equals the search string and
whose `endpoint_key` field is a string yields its key; an element that
fails either inner `if` is skipped and the loop continues. -/
def findEndpointKey (endpoints : List JValue) (search_endpoint : Str) : Option Str :=
  match endpoints with
  | [] => none
  | ep :: rest =>
    if jsonContains ep endpointNameField
        && jvalEqStr (jsonGet ep endpointNameField) search_endpoint then
      if jsonContains ep endpointKeyField
          && (jsonGet ep endpointKeyField).isString then
        some (jsonGet ep endpointKeyField).getStr
      else findEndpointKey rest search_endpoint
    else findEndpointKey rest search_endpoint

/-- The outer environment: `none` models `getenv("ENDPOINTS") == nullptr`,
`some (Except.error e)` a parse that threw `nlohmann::json::exception`,
`some (Except.ok j)` a successful parse producing `j`. -/
abbrev EndpointsEnv := Option (Except Str JValue)

/-- `make87::resolve_endpoint_name`, with the parse outcome of the
`ENDPOINTS` environment variable as explicit input: unset environment
and parser exceptions return `default_value`; with a parsed document,
if the top-level `endpoints` field exists and is an array, the first
qualifying element's key is sanitized and returned, and every other
path returns `default_value`. -/
def resolve_endpoint_name (env : EndpointsEnv) (search_endpoint default_value : Str) : Str :=
  match env with
  | none => default_value
  | some (Except.error _) => default_value
  | some (Except.ok json_obj) =>
    if jsonContains json_obj endpointsField
        && (jsonGet json_obj endpointsField).isArray then
      match findEndpointKey (jsonGet json_obj endpointsField).getArr search_endpoint with
      | some key => sanitize_and_checksum key
      | none => default_value
    else default_value

/-- The key the resolver would use: `none` on every failure path. -/
def resolvedKey (env : EndpointsEnv) (search_endpoint : Str) : Option Str :=
  match env with
  | some (Except.ok json_obj) =>
    if jsonContains json_obj endpointsField
        && (jsonGet json_obj endpointsField).isArray then
      findEndpointKey (jsonGet json_obj endpointsField).getArr search_endpoint
    else none
  | _ => none

/-- An array element qualifies when both inner conditions of the loop
hold: `endpoint_name` present and equal to the search string, and
`endpoint_key` present with a string value. -/
def qualifies (ep : JValue) (search_endpoint : Str) : Bool :=
  (jsonContains ep endpointNameField
      && jvalEqStr (jsonGet ep endpointNameField) search_endpoint)
    && (jsonContains ep endpointKeyField
      && (jsonGet ep endpointKeyField).isString)

/-!
## Concrete documents used as test inputs

`sampleDoc` is the parsed form of the spec's example
`{"endpoints":[{"endpoint_name":"REQUESTER_ENDPOINT","endpoint_key":"my key!"}]}`;
`dupDoc` holds two entries sharing one `endpoint_name`.
-/

/-- The spec's example `ENDPOINTS` document, parsed. -/
def sampleDoc : JValue :=
  JValue.jobj [(endpointsField, JValue.jarr
    [JValue.jobj [(endpointNameField, JValue.jstr (asciiBytes "REQUESTER_ENDPOINT")),
                  (endpointKeyField, JValue.jstr (asciiBytes "my key!"))]])]

/-- First of two entries sharing the name `"N"`. -/
def dupEp1 : JValue :=
  JValue.jobj [(endpointNameField, JValue.jstr (asciiBytes "N")),
               (endpointKeyField, JValue.jstr (asciiBytes "key1"))]

/-- Second of two entries sharing the name `"N"`. -/
def dupEp2 : JValue :=
  JValue.jobj [(endpointNameField, JValue.jstr (asciiBytes "N")),
               (endpointKeyField, JValue.jstr (asciiBytes "key2"))]

/-- A document whose `endpoints` array holds `dupEp1` then `dupEp2`. -/
def dupDoc : JValue :=
  JValue.jobj [(endpointsField, JValue.jarr [dupEp1, dupEp2])]

/-!
## Helper lemmas
-/

/-- One checksum step lands strictly below the modulus. -/
theorem checksumStep_lt (sum b : Nat) : checksumStep sum b < CHECKSUM_MOD :=
  Nat.mod_lt _ (by decide)

/-- The checksum fold keeps the accumulator below the modulus. -/
theorem foldl_checksumStep_lt (l : Str) : ∀ sum, sum < CHECKSUM_MOD →
    l.foldl checksumStep sum < CHECKSUM_MOD := by
  induction l with
  | nil => intro sum h; exact h
  | cons b rest ih => intro sum _; exact ih _ (checksumStep_lt sum b)

/-- The checksum of any input is strictly below `1000000007`. -/
theorem checksum_lt (input : Str) : checksum input < CHECKSUM_MOD :=
  foldl_checksumStep_lt input 0 (by decide)

/-- Any fuel above `n` computes the same digit list. -/
theorem digitsAux_congr : ∀ (n f g : Nat), n < f → n < g →
    digitsAux f n = digitsAux g n := by
  intro n
  induction n using Nat.strong_induction_on with
  | _ n ih =>
    intro f g hf hg
    cases f with
    | zero => omega
    | succ f =>
      cases g with
      | zero => omega
      | succ g =>
        by_cases h : n < 10
        · simp [digitsAux, h]
        · have hdiv : n / 10 < n := Nat.div_lt_self (by omega) (by omega)
          simp only [digitsAux, if_neg h]
          rw [ih (n / 10) hdiv f g (by omega) (by omega)]

/-- Rendering a one-digit number. -/
theorem decimalDigits_small {n : Nat} (h : n < 10) : decimalDigits n = [n + 48] := by
  simp [decimalDigits, digitsAux, h]

/-- Rendering a multi-digit number peels off the last digit. -/
theorem decimalDigits_step {n : Nat} (h : ¬ n < 10) :
    decimalDigits n = decimalDigits (n / 10) ++ [n % 10 + 48] := by
  have hdiv : n / 10 < n := Nat.div_lt_self (by omega) (by omega)
  show digitsAux (n + 1) n = digitsAux (n / 10 + 1) (n / 10) ++ [n % 10 + 48]
  rw [show digitsAux (n + 1) n
        = if n < 10 then [n + 48] else digitsAux n (n / 10) ++ [n % 10 + 48] from rfl,
      if_neg h, digitsAux_congr (n / 10) n (n / 10 + 1) hdiv (by omega)]

/-- A number below `10^(k+1)` renders in at most `k+1` digits. -/
theorem decimalDigits_length_le : ∀ (k n : Nat), n < 10 ^ (k + 1) →
    (decimalDigits n).length ≤ k + 1 := by
  intro k
  induction k with
  | zero =>
    intro n h
    rw [decimalDigits_small (by omega)]
    simp
  | succ k ih =>
    intro n h
    by_cases h10 : n < 10
    · rw [decimalDigits_small h10]
      simp
    · rw [decimalDigits_step h10]
      have hdiv : n / 10 < 10 ^ (k + 1) := by
        rw [Nat.div_lt_iff_lt_mul (by omega)]
        calc n < 10 ^ (k + 2) := h
          _ = 10 ^ (k + 1) * 10 := by ring
      have := ih (n / 10) hdiv
      simp only [List.length_append, List.length_cons, List.length_nil]
      omega

/-- A positive number renders with a nonzero leading digit. -/
theorem decimalDigits_head_ne : ∀ n : Nat, 0 < n →
    ∃ d ds, decimalDigits n = d :: ds ∧ d ≠ 48 := by
  intro n
  induction n using Nat.strong_induction_on with
  | _ n ih =>
    intro hn
    by_cases h : n < 10
    · exact ⟨n + 48, [], by rw [decimalDigits_small h], by omega⟩
    · have hdiv : n / 10 < n := Nat.div_lt_self (by omega) (by omega)
      have hpos : 0 < n / 10 := Nat.div_pos (by omega) (by omega)
      obtain ⟨d, ds, heq, hd⟩ := ih (n / 10) hdiv hpos
      exact ⟨d, ds ++ [n % 10 + 48], by rw [decimalDigits_step h, heq]; rfl, hd⟩

/-- The checksum string never exceeds 10 characters. -/
theorem checksumStr_length_le (input : Str) :
    (decimalDigits (checksum input)).length ≤ 10 := by
  have h := checksum_lt input
  have h10 : checksum input < 10 ^ (9 + 1) := by
    have : CHECKSUM_MOD < 10 ^ (9 + 1) := by decide
    omega
  exact decimalDigits_length_le 9 _ h10

/-- `size_t` subtraction agrees with `Nat` subtraction when it cannot
underflow. -/
theorem sub64_eq {a b : Nat} (hb : b ≤ a) (ha : a < UINT64_LIMIT) :
    sub64 a b = a - b := by
  simp only [sub64, UINT64_LIMIT] at ha ⊢
  omega

/-- The length budget of the sanitized segment, with the `size_t`
subtractions eliminated. -/
theorem max_sanitized_length_eq (input : Str) :
    sub64 (sub64 256 ros2Tag.length) (decimalDigits (checksum input)).length
      = 251 - (decimalDigits (checksum input)).length := by
  have hL := checksumStr_length_le input
  have h1 : sub64 256 ros2Tag.length = 251 := by decide
  rw [h1, sub64_eq (by omega) (by simp [UINT64_LIMIT])]

/-- `sanitize_and_checksum` always decomposes as tag, truncated
sanitized input, checksum digits. -/
theorem sanitize_and_checksum_eq (input : Str) :
    sanitize_and_checksum input =
      ros2Tag ++ (sanitize input).take (251 - (decimalDigits (checksum input)).length)
        ++ decimalDigits (checksum input) := by
  simp only [sanitize_and_checksum, max_sanitized_length_eq]
  by_cases hlen : (sanitize input).length > 251 - (decimalDigits (checksum input)).length
  · simp [hlen]
  · rw [if_neg hlen, List.take_of_length_le (by omega)]

/-- Sanitized bytes always satisfy the character test. -/
theorem sanitizeByte_allowed (c : Nat) : isAllowedByte (sanitizeByte c) = true := by
  by_cases h : isAllowedByte c
  · simp [sanitizeByte, h]
  · simp [sanitizeByte, h]
    decide

/-- The resolver returns the sanitized resolved key when one exists,
the default otherwise. -/
theorem resolve_eq_resolvedKey (env : EndpointsEnv) (s d : Str) :
    resolve_endpoint_name env s d =
      match resolvedKey env s with
      | some k => sanitize_and_checksum k
      | none => d := by
  cases env with
  | none => rfl
  | some r =>
    cases r with
    | error e => rfl
    | ok j =>
      simp only [resolve_endpoint_name, resolvedKey]
      by_cases h : (jsonContains j endpointsField
          && (jsonGet j endpointsField).isArray) = true
      · simp [h]
      · simp [h]

/-- One step of the search loop, phrased with `qualifies`. -/
theorem findEndpointKey_cons (ep : JValue) (rest : List JValue) (s : Str) :
    findEndpointKey (ep :: rest) s =
      if qualifies ep s then some (jsonGet ep endpointKeyField).getStr
      else findEndpointKey rest s := by
  simp only [findEndpointKey, qualifies]
  by_cases h1 : (jsonContains ep endpointNameField
      && jvalEqStr (jsonGet ep endpointNameField) s) = true
  · by_cases h2 : (jsonContains ep endpointKeyField
        && (jsonGet ep endpointKeyField).isString) = true
    · simp [h1, h2]
    · simp [h1, h2]
  · simp [h1]

/-- The first fully qualifying element wins, whatever follows it. -/
theorem findEndpointKey_first : ∀ (pre : List JValue) (ep : JValue)
    (post : List JValue) (s : Str),
    (∀ e ∈ pre, qualifies e s = false) → qualifies ep s = true →
    findEndpointKey (pre ++ ep :: post) s
      = some (jsonGet ep endpointKeyField).getStr := by
  intro pre
  induction pre with
  | nil =>
    intro ep post s hpre hep
    rw [List.nil_append, findEndpointKey_cons, if_pos hep]
  | cons e pre ih =>
    intro ep post s hpre hep
    have he : qualifies e s = false := hpre e (by simp)
    rw [List.cons_append, findEndpointKey_cons, if_neg (by simp [he])]
    exact ih ep post s (fun x hx => hpre x (by simp [hx])) hep

/-- If no element fully qualifies, the loop falls through. -/
theorem findEndpointKey_eq_none : ∀ (eps : List JValue) (s : Str),
    (∀ e ∈ eps, qualifies e s = false) → findEndpointKey eps s = none := by
  intro eps
  induction eps with
  | nil => intro s _; rfl
  | cons e rest ih =>
    intro s h
    have he : qualifies e s = false := h e (by simp)
    rw [findEndpointKey_cons, if_neg (by simp [he])]
    exact ih s fun x hx => h x (by simp [hx])

/-- With a parsed document, a fall-through of the search loop makes the
resolver return the default. -/
theorem resolve_ok_of_find_none (j : JValue) (s d : Str)
    (h : findEndpointKey (jsonGet j endpointsField).getArr s = none) :
    resolve_endpoint_name (some (Except.ok j)) s d = d := by
  by_cases hc : (jsonContains j endpointsField
      && (jsonGet j endpointsField).isArray) = true
  · simp [resolve_endpoint_name, hc, h]
  · simp [resolve_endpoint_name, hc]

/-!
## Claim theorems
-/

/-- C1: whenever the scan of the `endpoints` array finds a first
qualifying match, the resolver returns the match's `endpoint_key`
passed through `sanitize_and_checksum`; with the claim's concrete
`ENDPOINTS` document this yields `"ros2_my_key_"` followed by the
decimal checksum of `"my key!"` (witnessed below). -/
theorem c1_first_match_returns_sanitized_key (env : EndpointsEnv) (s d k : Str)
    (h : resolvedKey env s = some k) :
    resolve_endpoint_name env s d = sanitize_and_checksum k := by
  rw [resolve_eq_resolvedKey, h]

theorem c1_first_match_returns_sanitized_key_witness :
    resolvedKey (some (Except.ok sampleDoc)) (asciiBytes "REQUESTER_ENDPOINT")
        = some (asciiBytes "my key!")
    ∧ resolve_endpoint_name (some (Except.ok sampleDoc))
        (asciiBytes "REQUESTER_ENDPOINT") (asciiBytes "add_two_ints")
        = asciiBytes "ros2_my_key_234868954" :=
  ⟨by decide,
   (c1_first_match_returns_sanitized_key (some (Except.ok sampleDoc))
      (asciiBytes "REQUESTER_ENDPOINT") (asciiBytes "add_two_ints")
      (asciiBytes "my key!") (by decide)).trans (by decide)⟩

/-- C2: the resolver is total and absorbs every failure path — unset
environment, parser exception, missing or non-array `endpoints` field,
and a search with no qualifying match all return the default value;
in general every call returns either the default or the sanitized key
of a match. -/
theorem c2_resolver_absorbs_all_failures (s d : Str) :
    resolve_endpoint_name none s d = d
    ∧ (∀ e, resolve_endpoint_name (some (Except.error e)) s d = d)
    ∧ (∀ j, (jsonContains j endpointsField
          && (jsonGet j endpointsField).isArray) = false →
        resolve_endpoint_name (some (Except.ok j)) s d = d)
    ∧ (∀ j, findEndpointKey (jsonGet j endpointsField).getArr s = none →
        resolve_endpoint_name (some (Except.ok j)) s d = d)
    ∧ (∀ env, resolve_endpoint_name env s d = d
        ∨ ∃ k, resolvedKey env s = some k
            ∧ resolve_endpoint_name env s d = sanitize_and_checksum k) := by
  refine ⟨rfl, fun e => rfl, ?_, ?_, ?_⟩
  · intro j h
    simp [resolve_endpoint_name, h]
  · intro j h
    exact resolve_ok_of_find_none j s d h
  · intro env
    rw [resolve_eq_resolvedKey]
    cases hk : resolvedKey env s with
    | none => exact Or.inl rfl
    | some k => exact Or.inr ⟨k, rfl, rfl⟩

theorem c2_resolver_absorbs_all_failures_witness :
    resolve_endpoint_name none (asciiBytes "X") (asciiBytes "default")
        = asciiBytes "default"
    ∧ resolve_endpoint_name (some (Except.error (asciiBytes "bad json")))
        (asciiBytes "X") (asciiBytes "default") = asciiBytes "default"
    ∧ resolve_endpoint_name (some (Except.ok (JValue.jnum 5)))
        (asciiBytes "X") (asciiBytes "default") = asciiBytes "default" :=
  ⟨(c2_resolver_absorbs_all_failures (asciiBytes "X") (asciiBytes "default")).1,
   (c2_resolver_absorbs_all_failures (asciiBytes "X") (asciiBytes "default")).2.1 _,
   (c2_resolver_absorbs_all_failures (asciiBytes "X") (asciiBytes "default")).2.2.1
     (JValue.jnum 5) (by decide)⟩

/-- C3: the scan is in array order and the first element satisfying the
full condition (matching `endpoint_name` and string-valued
`endpoint_key`) wins — in particular of two entries sharing a name the
earlier qualifying one is used — and when no element satisfies the full
condition the loop yields nothing and the resolver returns the
default. -/
theorem c3_first_full_match_wins (s : Str) :
    (∀ (pre : List JValue) (ep : JValue) (post : List JValue),
        (∀ e ∈ pre, qualifies e s = false) → qualifies ep s = true →
        findEndpointKey (pre ++ ep :: post) s
          = some (jsonGet ep endpointKeyField).getStr)
    ∧ (∀ eps : List JValue, (∀ e ∈ eps, qualifies e s = false) →
        findEndpointKey eps s = none)
    ∧ (∀ (j : JValue) (d : Str),
        findEndpointKey (jsonGet j endpointsField).getArr s = none →
        resolve_endpoint_name (some (Except.ok j)) s d = d) :=
  ⟨fun pre ep post hpre hep => findEndpointKey_first pre ep post s hpre hep,
   fun eps h => findEndpointKey_eq_none eps s h,
   fun j d h => resolve_ok_of_find_none j s d h⟩

theorem c3_first_full_match_wins_witness :
    findEndpointKey [dupEp1, dupEp2] (asciiBytes "N") = some (asciiBytes "key1")
    ∧ resolve_endpoint_name (some (Except.ok dupDoc)) (asciiBytes "OTHER")
        (asciiBytes "add_two_ints") = asciiBytes "add_two_ints" :=
  ⟨((c3_first_full_match_wins (asciiBytes "N")).1 [] dupEp1 [dupEp2]
      (by simp) (by decide)).trans (by decide),
   (c3_first_full_match_wins (asciiBytes "OTHER")).2.2 dupDoc
     (asciiBytes "add_two_ints") (by decide)⟩

/-- C4: the checksum is the fold `sum = (sum * 31 + byte) mod 1000000007`
(in `uint64_t` arithmetic) over the original input bytes starting from
0, and its decimal rendering has no leading zeros, the value 0
rendering as `"0"`. -/
theorem c4_checksum_recurrence_and_decimal_rendering (input : Str) (b : Nat) :
    checksum ([] : Str) = 0
    ∧ checksum (input ++ [b])
        = ((checksum input * 31 + b) % UINT64_LIMIT) % CHECKSUM_MOD
    ∧ (checksum input = 0 → decimalDigits (checksum input) = [48])
    ∧ (0 < checksum input →
        ∃ d ds, decimalDigits (checksum input) = d :: ds ∧ d ≠ 48) := by
  refine ⟨rfl, ?_, ?_, ?_⟩
  · simp only [checksum, List.foldl_append, List.foldl_cons, List.foldl_nil]
    rfl
  · intro h
    rw [h]
    rfl
  · exact decimalDigits_head_ne _

theorem c4_checksum_recurrence_and_decimal_rendering_witness :
    checksum [97, 98] = ((checksum [97] * 31 + 98) % UINT64_LIMIT) % CHECKSUM_MOD
    ∧ decimalDigits (checksum ([] : Str)) = [48]
    ∧ (∃ d ds, decimalDigits (checksum [97]) = d :: ds ∧ d ≠ 48) :=
  ⟨(c4_checksum_recurrence_and_decimal_rendering [97] 98).2.1,
   (c4_checksum_recurrence_and_decimal_rendering [] 0).2.2.1 rfl,
   (c4_checksum_recurrence_and_decimal_rendering [97] 0).2.2.2 (by decide)⟩

/-- C5: sanitization is byte-by-byte — allowed bytes (`a`-`z`, `A`-`Z`,
`0`-`9`, `_`) pass through and every other byte becomes `_` — it
preserves length before truncation, and every byte of the sanitized
segment of the output (between the tag and the checksum digits)
satisfies the allowed-character test. -/
theorem c5_sanitize_charwise_and_charset_invariant (input : Str) (c : Nat) :
    (isAllowedByte c = true → sanitizeByte c = c)
    ∧ (isAllowedByte c = false → sanitizeByte c = 95)
    ∧ sanitize input = input.map sanitizeByte
    ∧ (sanitize input).length = input.length
    ∧ sanitize_and_checksum input
        = ros2Tag
          ++ (sanitize input).take (251 - (decimalDigits (checksum input)).length)
          ++ decimalDigits (checksum input)
    ∧ (∀ d ∈ (sanitize input).take (251 - (decimalDigits (checksum input)).length),
        isAllowedByte d = true) := by
  refine ⟨?_, ?_, rfl, by simp [sanitize], sanitize_and_checksum_eq input, ?_⟩
  · intro h
    simp [sanitizeByte, h]
  · intro h
    simp [sanitizeByte, h]
  · intro d hd
    have hd2 : d ∈ sanitize input := List.take_subset _ _ hd
    simp only [sanitize, List.mem_map] at hd2
    obtain ⟨c0, _, hc0⟩ := hd2
    rw [← hc0]
    exact sanitizeByte_allowed c0

theorem c5_sanitize_charwise_and_charset_invariant_witness :
    sanitizeByte 97 = 97
    ∧ sanitizeByte 46 = 95
    ∧ (sanitize [97, 46, 98]).length = 3 :=
  ⟨(c5_sanitize_charwise_and_charset_invariant [] 97).1 (by decide),
   (c5_sanitize_charwise_and_charset_invariant [] 46).2.1 (by decide),
   ((c5_sanitize_charwise_and_charset_invariant [97, 46, 98] 0).2.2.2.1).trans rfl⟩

/-- C6: the output is always the concatenation of the `"ros2_"` tag,
the sanitized input truncated from the right to the length budget, and
the checksum digits; its length is at most 256 and at least the tag
length plus the checksum length. -/
theorem c6_output_shape_and_length_bounds (input : Str) :
    sanitize_and_checksum input
      = ros2Tag
        ++ (sanitize input).take (251 - (decimalDigits (checksum input)).length)
        ++ decimalDigits (checksum input)
    ∧ (sanitize_and_checksum input).length ≤ 256
    ∧ ros2Tag.length + (decimalDigits (checksum input)).length
        ≤ (sanitize_and_checksum input).length := by
  have heq := sanitize_and_checksum_eq input
  have hL := checksumStr_length_le input
  have h5 : ros2Tag.length = 5 := rfl
  refine ⟨heq, ?_, ?_⟩
  · rw [heq]
    simp only [List.length_append, List.length_take]
    omega
  · rw [heq]
    simp only [List.length_append]
    omega

/-- C7: on the empty input the checksum accumulator stays 0 over zero
bytes and renders as `"0"`, the sanitized segment is empty, and the
output is exactly `"ros2_0"`. -/
theorem c7_empty_input_yields_ros2_0 :
    sanitize_and_checksum ([] : Str) = asciiBytes "ros2_0"
    ∧ checksum ([] : Str) = 0
    ∧ decimalDigits 0 = [48]
    ∧ sanitize ([] : Str) = [] := by
  refine ⟨by decide, rfl, rfl, rfl⟩

/-- C8: `"a.b"` and `"a-b"` sanitize identically yet differ in original
bytes, and their checksums — computed from the pre-sanitization bytes —
differ, so the two outputs differ. -/
theorem c8_checksum_distinguishes_collisions :
    sanitize (asciiBytes "a.b") = sanitize (asciiBytes "a-b")
    ∧ asciiBytes "a.b" ≠ asciiBytes "a-b"
    ∧ checksum (asciiBytes "a.b") ≠ checksum (asciiBytes "a-b")
    ∧ sanitize_and_checksum (asciiBytes "a.b")
        ≠ sanitize_and_checksum (asciiBytes "a-b") := by
  refine ⟨by decide, by decide, by decide, by decide⟩

/-- C9: `sanitize_and_checksum` is a total function of its input alone:
equal inputs give equal outputs. -/
theorem c9_deterministic (s t : Str) (h : s = t) :
    sanitize_and_checksum s = sanitize_and_checksum t := by
  rw [h]

theorem c9_deterministic_witness :
    sanitize_and_checksum (asciiBytes "abc") = sanitize_and_checksum (asciiBytes "abc") :=
  c9_deterministic (asciiBytes "abc") (asciiBytes "abc") rfl

/-- C10: for every input the checksum is strictly below `1000000007`,
its decimal rendering has at most 10 characters, the `size_t`
subtraction computing the length budget never underflows (it agrees
with exact subtraction), and the budget is at least 241. -/
theorem c10_length_budget_no_underflow (input : Str) :
    checksum input < CHECKSUM_MOD
    ∧ (decimalDigits (checksum input)).length ≤ 10
    ∧ sub64 (sub64 256 ros2Tag.length) (decimalDigits (checksum input)).length
        = 256 - ros2Tag.length - (decimalDigits (checksum input)).length
    ∧ 241 ≤ sub64 (sub64 256 ros2Tag.length) (decimalDigits (checksum input)).length := by
  have h1 := checksum_lt input
  have h2 := checksumStr_length_le input
  have h3 := max_sanitized_length_eq input
  have h5 : ros2Tag.length = 5 := rfl
  refine ⟨h1, h2, ?_, ?_⟩
  · rw [h3, h5]
  · rw [h3]
    omega

end make87
